import Mathlib

/-!
Shallow embedding of `src/task/03-date-tasks.js` (a module of five date/time
utility functions) and verification of its specification.

Modelling conventions:
* A JavaScript `Date` is its time value: an integer count `t : ℤ` of
  milliseconds since the Unix epoch.  Field extraction follows ECMAScript:
  `HourFromTime(t) = floor(t / 3600000) modulo 24` and
  `MinFromTime(t) = floor(t / 60000) modulo 60`, where `floor` of the real
  quotient is `Int.fdiv` and ECMAScript `modulo` (result has the sign of the
  divisor) is `Int.emod`.
* JavaScript `%` on integers is the truncated remainder, `Int.tmod`.
* All numbers occurring in this module stay far inside the range where IEEE
  double arithmetic on integers and exact halves is exact (the JS `Date`
  range is `|t| ≤ 8.64e15 < 2^53`), so integer/rational arithmetic is the
  exact semantics of the source's number arithmetic.
* JavaScript number-to-string coercion on the non-negative integers produced
  here prints the usual decimal numeral; it is modelled by `natToString`.
-/

namespace DateTasks

/-- The decimal digit character for `d` (JS prints digits `'0'..'9'`,
code points `48 + d`). -/
def digitChar (d : ℕ) : Char := Char.ofNat (48 + d)

/-- Fuel-driven big-endian decimal digit list of `n` (empty for `0`).
The fuel makes the recursion structural, so that terms reduce by `decide`. -/
def natToCharsAux : ℕ → ℕ → List Char
  | 0, _ => []
  | fuel + 1, n => if n = 0 then [] else natToCharsAux fuel (n / 10) ++ [digitChar (n % 10)]

/-- Big-endian decimal digit list of `n` (empty for `0`). -/
def natToChars (n : ℕ) : List Char := natToCharsAux (n + 1) n

/-- Model of JavaScript number-to-string coercion for a non-negative integer:
the decimal numeral, `"0"` for zero. -/
def natToString (n : ℕ) : String := ⟨if n = 0 then [Char.ofNat 48] else natToChars n⟩

/-- Model of JavaScript number-to-string coercion for an integer. -/
def jsIntToString (i : ℤ) : String :=
  if i < 0 then ⟨Char.ofNat 45 :: (natToString i.natAbs).data⟩ else natToString i.toNat

/-- Model of JavaScript `Math.abs` on an exact rational number value. -/
def jsAbs (q : ℚ) : ℚ := if q < 0 then -q else q

/-- Model of JavaScript `Math.abs` on an integer number value. -/
def jsAbsZ (i : ℤ) : ℤ := if i < 0 then -i else i

/-- ECMAScript `HourFromTime`: the UTC hour (0..23) of time value `t`,
as read by `date.getUTCHours()`. -/
def getUTCHours (t : ℤ) : ℤ := (t.fdiv 3600000).emod 24

/-- ECMAScript `MinFromTime`: the UTC minute (0..59) of time value `t`,
as read by `date.getUTCMinutes()`. -/
def getUTCMinutes (t : ℤ) : ℤ := (t.fdiv 60000).emod 60

/-! ### `isLeapYear` (src/task/03-date-tasks.js, lines 58-68)

The source reads `date.getFullYear()` and then tests the year with `%`;
the embedding takes the extracted year directly.  JS `%` is `Int.tmod`. -/

/-- `isLeapYear`, embedded over the year read from the date. -/
def isLeapYear (year : ℤ) : Bool :=
  if year.tmod 4 ≠ 0 then false
  else if year.tmod 100 ≠ 0 then true
  else if year.tmod 400 ≠ 0 then false
  else true

/-! ### `timeSpanToString` (src/task/03-date-tasks.js, lines 86-119)

The source computes `time = endDate - startDate` and then runs four
branches that update the string variables `h, m, s, ms` (initialised to
`'00', '00', '00', '000'`) and the accumulator `temp` (initialised to `0`).
Each stage below is a function of `time`, named after the quantity the
corresponding JS expression computes.

Two notes on fidelity:
* `Math.floor(x/y)` on the exact values at hand is `Int.fdiv x y`.
* In the minute and second branches the source's inner test is
  `Math.floor((Math.abs(temp-time)/60000) < 10)` — the comparison sits
  INSIDE the floor, so the boolean is coerced through `Math.floor` (1 or 0)
  and the branch is taken iff the unfloored quotient is `< 10`, i.e. iff
  `Math.abs(temp-time) < 600000` (resp. `< 10000` with divisor 1000).
  That is the condition embedded here. -/

/-- `Math.floor(time/3600000)`, the hour count. -/
def hoursQ (time : ℤ) : ℤ := time.fdiv 3600000

/-- `temp` after the hour branch. -/
def temp1 (time : ℤ) : ℤ := if 0 < hoursQ time then hoursQ time * 3600000 else 0

/-- `Math.abs(temp-time)` after the hour branch. -/
def rem1 (time : ℤ) : ℤ := jsAbsZ (temp1 time - time)

/-- `Math.floor(Math.abs(temp-time)/60000)`, the minute count. -/
def minutesQ (time : ℤ) : ℤ := (rem1 time).fdiv 60000

/-- `temp` after the minute branch. -/
def temp2 (time : ℤ) : ℤ :=
  if 0 < minutesQ time then temp1 time + minutesQ time * 60000 else temp1 time

/-- `Math.abs(temp-time)` after the minute branch. -/
def rem2 (time : ℤ) : ℤ := jsAbsZ (temp2 time - time)

/-- `Math.floor(Math.abs(temp-time)/1000)`, the second count. -/
def secondsQ (time : ℤ) : ℤ := (rem2 time).fdiv 1000

/-- `temp` after the second branch. -/
def temp3 (time : ℤ) : ℤ :=
  if 0 < secondsQ time then temp2 time + secondsQ time * 1000 else temp2 time

/-- `Math.abs(temp-time)` after the second branch: the millisecond count. -/
def rem3 (time : ℤ) : ℤ := jsAbsZ (temp3 time - time)

/-- The final value of the variable `h`. -/
def hStr (time : ℤ) : String :=
  if 0 < hoursQ time then
    if hoursQ time < 10 then "0" ++ jsIntToString (hoursQ time)
    else jsIntToString (hoursQ time)
  else "00"

/-- The final value of the variable `m` (inner test as explained above). -/
def mStr (time : ℤ) : String :=
  if 0 < minutesQ time then
    if rem1 time < 600000 then "0" ++ jsIntToString (minutesQ time)
    else jsIntToString (minutesQ time)
  else "00"

/-- The final value of the variable `s` (inner test as explained above). -/
def sStr (time : ℤ) : String :=
  if 0 < secondsQ time then
    if rem2 time < 10000 then "0" ++ jsIntToString (secondsQ time)
    else jsIntToString (secondsQ time)
  else "00"

/-- The final value of the variable `ms`. -/
def msStr (time : ℤ) : String :=
  if 0 < rem3 time then
    if rem3 time < 10 then "00" ++ jsIntToString (rem3 time)
    else if rem3 time < 100 then "0" ++ jsIntToString (rem3 time)
    else jsIntToString (rem3 time)
  else "000"

/-- `timeSpanToString`: the returned string `h+':'+ m +':' + s + '.'+ ms`. -/
def timeSpanToString (startDate endDate : ℤ) : String :=
  hStr (endDate - startDate) ++ ":" ++ mStr (endDate - startDate) ++ ":" ++
  sStr (endDate - startDate) ++ "." ++ msStr (endDate - startDate)

/-- Zero-pad to two digits (spec §4.3: hours/minutes/seconds render
zero-padded to 2 digits, hours growing beyond 2 digits only when ≥ 100). -/
def padLeft2 (n : ℕ) : String := if n < 10 then "0" ++ natToString n else natToString n

/-- Zero-pad to three digits (spec §4.3: milliseconds). -/
def padLeft3 (n : ℕ) : String :=
  if n < 10 then "00" ++ natToString n
  else if n < 100 then "0" ++ natToString n
  else natToString n

/-- The spec's algorithm for `formatTimespan` (spec §4.3): decompose the
total milliseconds by successive integer division by 3600000 / 60000 / 1000,
each remainder cascading to the next unit, render the components zero-padded
to 2/2/2/3 digits, and join with `:`, `:`, `.`. -/
def spec_formatTimespan (d : ℕ) : String :=
  padLeft2 (d / 3600000) ++ ":" ++ padLeft2 (d % 3600000 / 60000) ++ ":" ++
  padLeft2 (d % 3600000 % 60000 / 1000) ++ "." ++ padLeft3 (d % 3600000 % 60000 % 1000)

/-! ### `angleBetweenClockHands` (src/task/03-date-tasks.js, lines 135-145) -/

/-- The hour variable after the source's 12-hour fold: `if (h >= 12) h -= 12`. -/
def jsClockHour (t : ℤ) : ℤ :=
  if getUTCHours t ≥ 12 then getUTCHours t - 12 else getUTCHours t

/-- The source's signed angle in degrees: `angle = ((h*60+m)/2) - (6*m)`
(exact number arithmetic; the quotient by 2 may be a half-integer). -/
def signedAngleDeg (t : ℤ) : ℚ :=
  (((jsClockHour t : ℚ)) * 60 + (getUTCMinutes t : ℚ)) / 2 - 6 * (getUTCMinutes t : ℚ)

/-- The degree value the source converts to radians:
`if (angle > 180) angle = 360 - angle; return Math.abs(angle) * ...`.
Note the `360 -` fold is applied BEFORE the absolute value. -/
def angleDeg (t : ℤ) : ℚ :=
  jsAbs (if 180 < signedAngleDeg t then 360 - signedAngleDeg t else signedAngleDeg t)

/-- `angleBetweenClockHands`: the returned radian value
`Math.abs(angle) * Math.PI / 180`. -/
noncomputable def angleBetweenClockHands (t : ℤ) : ℝ :=
  ((angleDeg t : ℚ) : ℝ) * Real.pi / 180

/-- The spec's algorithm for the clock angle (spec §4.4): take the absolute
value FIRST, then fold by `360 -` if it exceeds 180. -/
def spec_angleDeg (t : ℤ) : ℚ :=
  if 180 < jsAbs (signedAngleDeg t) then 360 - jsAbs (signedAngleDeg t)
  else jsAbs (signedAngleDeg t)

/-- The spec's clock-angle result in radians. -/
noncomputable def spec_angleBetweenClockHands (t : ℤ) : ℝ :=
  ((spec_angleDeg t : ℚ) : ℝ) * Real.pi / 180

/-! ### A reference parser for the `HH:mm:ss.sss` format

The spec's idempotence property (§8) is stated against "a parser for the
HH:mm:ss.sss format"; no such parser exists in the repository, so one is
modelled here from the spec's description of the format. -/

/-- The numeric value of a decimal digit character. -/
def digitVal (c : Char) : ℕ := c.toNat - 48

/-- Whether `c` is a decimal digit `'0'..'9'`. -/
def isDigitCh (c : Char) : Bool := decide (48 ≤ c.toNat) && decide (c.toNat ≤ 57)

/-- Decimal value accumulated left-to-right over a list of digit characters,
starting from `acc`. -/
def valAux (acc : ℕ) (l : List Char) : ℕ := l.foldl (fun a c => a * 10 + digitVal c) acc

/-- Consume a maximal run of leading digits, accumulating their value. -/
def readNatAux : List Char → ℕ → ℕ × List Char
  | [], acc => (acc, [])
  | c :: cs, acc => if isDigitCh c then readNatAux cs (acc * 10 + digitVal c) else (acc, c :: cs)

/-- Parse a non-empty run of leading digits; `none` if the input does not
start with a digit. -/
def expectNat : List Char → Option (ℕ × List Char)
  | [] => none
  | c :: cs => if isDigitCh c then some (readNatAux (c :: cs) 0) else none

/-- Consume the expected separator character. -/
def expectSep (x : Char) : List Char → Option (List Char)
  | [] => none
  | c :: cs => if c = x then some cs else none

/-- Modelled from the spec: a reference parser for the `HH:mm:ss.sss` format
(spec §8, "a parser for the HH:mm:ss.sss format"; the repository has no such
parser).  It reads the four digit fields separated by `:`, `:`, `.` and
recombines them as `h*3600000 + m*60000 + s*1000 + ms` milliseconds,
rejecting any other shape. -/
def parseTimeSpan (str : String) : Option ℕ := do
  let (hh, r1) ← expectNat str.data
  let r2 ← expectSep ':' r1
  let (mm, r3) ← expectNat r2
  let r4 ← expectSep ':' r3
  let (ss, r5) ← expectNat r4
  let r6 ← expectSep '.' r5
  let (mss, r7) ← expectNat r6
  if r7 = [] then some (hh * 3600000 + mm * 60000 + ss * 1000 + mss) else none

/-- The head of `l`, if any, is not a digit (used to delimit digit runs). -/
def headNotDigit (l : List Char) : Prop :=
  ∀ c, l.head? = some c → isDigitCh c = false

/-! ### `parseDataFromRfc2822` / `parseDataFromIso8601`
(src/task/03-date-tasks.js, lines 24-26 and 39-41)

Both functions are literally `return new Date(value)`: the module adds no
parsing logic of its own, and the date-string parser that decides the
claims about them is the JavaScript host's `Date` constructor, which is not
part of the repository.  That parser is therefore modelled from the spec
(§4.1, §7): it accepts a date/time grammar with an explicit UTC designator
or numeric offset, returns the represented instant independent of the
offset notation, and yields the invalid sentinel (JS `Invalid Date`,
modelled as `none`) on every non-conforming string.  The grammar modelled
is the date-time form ECMAScript itself mandates for `new Date(string)`:
`YYYY-MM-DDTHH:MM:SS` followed by `Z` or `±hh:mm`. -/

/-- Days from the Unix epoch of a civil Gregorian date
(the standard civil-from-days inverse, using floor division). -/
def daysFromCivil (y m d : ℤ) : ℤ :=
  let y2 := if m ≤ 2 then y - 1 else y
  let era := y2.fdiv 400
  let yoe := y2 - era * 400
  let mp := (m + 9).emod 12
  let doy := (153 * mp + 2).fdiv 5 + d - 1
  let doe := yoe * 365 + yoe.fdiv 4 - yoe.fdiv 100 + doy
  era * 146097 + doe - 719468

/-- Epoch milliseconds of a civil UTC date-time. -/
def utcMillis (y mo dy hh mi ss : ℕ) : ℤ :=
  daysFromCivil (y : ℤ) (mo : ℤ) (dy : ℤ) * 86400000 +
    (hh : ℤ) * 3600000 + (mi : ℤ) * 60000 + (ss : ℤ) * 1000

/-- The components of a date-time string in the modelled grammar.
`offset = none` is the `Z` designator; `offset = some (sg, oh, om)` is the
numeric offset `±oh:om`, negative when `sg` is true. -/
structure IsoFields where
  year : ℕ
  month : ℕ
  day : ℕ
  hour : ℕ
  minute : ℕ
  second : ℕ
  offset : Option (Bool × ℕ × ℕ)

/-- The signed offset in minutes. -/
def offsetMinutes : Option (Bool × ℕ × ℕ) → ℤ
  | none => 0
  | some (sg, oh, om) => (if sg then -1 else 1) * ((oh : ℤ) * 60 + (om : ℤ))

/-- The instant a well-formed field record denotes: its UTC milliseconds
minus its offset. -/
def isoInstant (f : IsoFields) : ℤ :=
  utcMillis f.year f.month f.day f.hour f.minute f.second -
    offsetMinutes f.offset * 60000

/-- Range checks on the in-string field values. -/
def validFields (y mo dy hh mi ss : ℕ) : Bool :=
  decide (y ≤ 9999) && decide (1 ≤ mo) && decide (mo ≤ 12) && decide (1 ≤ dy) &&
  decide (dy ≤ 31) && decide (hh ≤ 23) && decide (mi ≤ 59) && decide (ss ≤ 59)

/-- Well-formedness of a field record (exactly what the parser validates). -/
def wfIsoFields (f : IsoFields) : Bool :=
  validFields f.year f.month f.day f.hour f.minute f.second &&
  (match f.offset with
   | none => true
   | some (_, oh, om) => decide (oh ≤ 23) && decide (om ≤ 59))

/-- Fixed-width two-digit rendering. -/
def pad2c (n : ℕ) : List Char := [digitChar (n / 10 % 10), digitChar (n % 10)]

/-- Fixed-width four-digit rendering. -/
def pad4c (n : ℕ) : List Char :=
  [digitChar (n / 1000 % 10), digitChar (n / 100 % 10),
   digitChar (n / 10 % 10), digitChar (n % 10)]

/-- Render the offset part: `Z`, or `±hh:mm`. -/
def renderOffset : Option (Bool × ℕ × ℕ) → List Char
  | none => ['Z']
  | some (sg, oh, om) => (if sg then '-' else '+') :: (pad2c oh ++ ':' :: pad2c om)

/-- Render a field record in the modelled grammar
`YYYY-MM-DDTHH:MM:SS` + offset. -/
def renderIso (f : IsoFields) : String :=
  ⟨pad4c f.year ++ '-' :: (pad2c f.month ++ '-' :: (pad2c f.day ++ 'T' ::
    (pad2c f.hour ++ ':' :: (pad2c f.minute ++ ':' ::
      (pad2c f.second ++ renderOffset f.offset)))))⟩

/-- Read exactly two digit characters. -/
def read2 : List Char → Option (ℕ × List Char)
  | a :: b :: r =>
    if isDigitCh a && isDigitCh b then some (digitVal a * 10 + digitVal b, r) else none
  | _ => none

/-- Read exactly four digit characters. -/
def read4 : List Char → Option (ℕ × List Char)
  | a :: b :: c :: d :: r =>
    if isDigitCh a && isDigitCh b && isDigitCh c && isDigitCh d then
      some (digitVal a * 1000 + digitVal b * 100 + digitVal c * 10 + digitVal d, r)
    else none
  | _ => none

/-- Parse the trailing offset part: `Z`, or `±hh:mm` (nothing may follow). -/
def parseOffset : List Char → Option (Option (Bool × ℕ × ℕ))
  | [] => none
  | c :: r =>
    if c = 'Z' then (if r = [] then some none else none)
    else if c = '+' ∨ c = '-' then
      match read2 r with
      | none => none
      | some (oh, r1) =>
        match expectSep ':' r1 with
        | none => none
        | some r2 =>
          match read2 r2 with
          | none => none
          | some (om, r3) =>
            if r3 = [] ∧ oh ≤ 23 ∧ om ≤ 59 then some (some (c == '-', oh, om)) else none
    else none

/-- Parse the modelled grammar from a character list; `none` on any
non-conforming input. -/
def parseIsoChars (l : List Char) : Option ℤ :=
  match read4 l with
  | none => none
  | some (y, r1) =>
    match expectSep '-' r1 with
    | none => none
    | some r2 =>
      match read2 r2 with
      | none => none
      | some (mo, r3) =>
        match expectSep '-' r3 with
        | none => none
        | some r4 =>
          match read2 r4 with
          | none => none
          | some (dy, r5) =>
            match expectSep 'T' r5 with
            | none => none
            | some r6 =>
              match read2 r6 with
              | none => none
              | some (hh, r7) =>
                match expectSep ':' r7 with
                | none => none
                | some r8 =>
                  match read2 r8 with
                  | none => none
                  | some (mi, r9) =>
                    match expectSep ':' r9 with
                    | none => none
                    | some r10 =>
                      match read2 r10 with
                      | none => none
                      | some (ss, r11) =>
                        match parseOffset r11 with
                        | none => none
                        | some off =>
                          if validFields y mo dy hh mi ss then
                            some (utcMillis y mo dy hh mi ss - offsetMinutes off * 60000)
                          else none

/-- Modelled from the spec: the host `Date` string parser invoked by
`new Date(value)` (missing from the repository; spec §4.1 and §7).
Non-conforming strings yield the invalid sentinel `none`; conforming
strings yield the instant they denote. -/
def jsNewDate (value : String) : Option ℤ := parseIsoChars value.data

/-- `parseDataFromRfc2822`: the source is `return new Date(value)`. -/
def parseDataFromRfc2822 (value : String) : Option ℤ := jsNewDate value

/-- `parseDataFromIso8601`: the source is `return new Date(value)`. -/
def parseDataFromIso8601 (value : String) : Option ℤ := jsNewDate value

/-- A string conforms to the modelled grammar iff it is the rendering of
some well-formed field record. -/
def conformsIso (s : String) : Prop :=
  ∃ f : IsoFields, wfIsoFields f = true ∧ s = renderIso f

/-! ## Theorems -/

theorem jsAbs_eq_abs (q : ℚ) : jsAbs q = |q| := by
  unfold jsAbs
  rcases le_or_lt 0 q with h | h
  · rw [if_neg (not_lt.mpr h), abs_of_nonneg h]
  · rw [if_pos h, abs_of_neg h]

theorem jsAbsZ_eq_abs (i : ℤ) : jsAbsZ i = |i| := by
  unfold jsAbsZ
  rcases le_or_lt 0 i with h | h
  · rw [if_neg (not_lt.mpr h), abs_of_nonneg h]
  · rw [if_pos h, abs_of_neg h]

/-! ### Arithmetic of the `timeSpanToString` cascade, for a non-negative span -/

theorem hoursQ_cast (d : ℕ) : hoursQ (d : ℤ) = ((d / 3600000 : ℕ) : ℤ) := by
  unfold hoursQ
  rw [Int.fdiv_eq_ediv _ (by norm_num)]
  omega

theorem rem1_cast (d : ℕ) : rem1 (d : ℤ) = ((d % 3600000 : ℕ) : ℤ) := by
  unfold rem1 temp1 jsAbsZ
  rw [hoursQ_cast]
  split_ifs <;> omega

theorem minutesQ_cast (d : ℕ) : minutesQ (d : ℤ) = ((d % 3600000 / 60000 : ℕ) : ℤ) := by
  unfold minutesQ
  rw [rem1_cast, Int.fdiv_eq_ediv _ (by norm_num)]
  omega

theorem rem2_cast (d : ℕ) : rem2 (d : ℤ) = ((d % 3600000 % 60000 : ℕ) : ℤ) := by
  unfold rem2 temp2 temp1 jsAbsZ
  rw [minutesQ_cast, hoursQ_cast]
  split_ifs <;> omega

theorem secondsQ_cast (d : ℕ) :
    secondsQ (d : ℤ) = ((d % 3600000 % 60000 / 1000 : ℕ) : ℤ) := by
  unfold secondsQ
  rw [rem2_cast, Int.fdiv_eq_ediv _ (by norm_num)]
  omega

theorem rem3_cast (d : ℕ) : rem3 (d : ℤ) = ((d % 3600000 % 60000 % 1000 : ℕ) : ℤ) := by
  unfold rem3 temp3 temp2 temp1 jsAbsZ
  rw [secondsQ_cast, minutesQ_cast, hoursQ_cast]
  split_ifs <;> omega

theorem jsIntToString_ofNat (n : ℕ) : jsIntToString (n : ℤ) = natToString n := by
  unfold jsIntToString
  rw [if_neg (by omega), Int.toNat_ofNat]

theorem hStr_eq (d : ℕ) : hStr (d : ℤ) = padLeft2 (d / 3600000) := by
  unfold hStr padLeft2
  rw [hoursQ_cast, jsIntToString_ofNat]
  split_ifs <;> try rfl
  all_goals try omega
  have hq : d / 3600000 = 0 := by omega
  rw [hq]
  decide

theorem mStr_eq (d : ℕ) : mStr (d : ℤ) = padLeft2 (d % 3600000 / 60000) := by
  unfold mStr padLeft2
  rw [minutesQ_cast, rem1_cast, jsIntToString_ofNat]
  split_ifs <;> try rfl
  all_goals try omega
  have hq : d % 3600000 / 60000 = 0 := by omega
  rw [hq]
  decide

theorem sStr_eq (d : ℕ) : sStr (d : ℤ) = padLeft2 (d % 3600000 % 60000 / 1000) := by
  unfold sStr padLeft2
  rw [secondsQ_cast, rem2_cast, jsIntToString_ofNat]
  split_ifs <;> try rfl
  all_goals try omega
  have hq : d % 3600000 % 60000 / 1000 = 0 := by omega
  rw [hq]
  decide

theorem msStr_eq (d : ℕ) : msStr (d : ℤ) = padLeft3 (d % 3600000 % 60000 % 1000) := by
  unfold msStr padLeft3
  rw [rem3_cast, jsIntToString_ofNat]
  split_ifs <;> try rfl
  all_goals try omega
  have hq : d % 3600000 % 60000 % 1000 = 0 := by omega
  rw [hq]
  decide

/-- Shared characterization: for a non-negative span the source's cascading
branch structure produces exactly the spec's decomposition string. -/
theorem timeSpanToString_eq_spec (startDate endDate : ℤ) (h : startDate ≤ endDate) :
    timeSpanToString startDate endDate = spec_formatTimespan (endDate - startDate).toNat := by
  unfold timeSpanToString spec_formatTimespan
  have h0 : ((endDate - startDate).toNat : ℤ) = endDate - startDate :=
    Int.toNat_of_nonneg (by omega)
  rw [← h0, hStr_eq, mStr_eq, sStr_eq, msStr_eq]
  simp only [Int.toNat_ofNat]

/-! ### Clock-angle bounds and evaluations -/

theorem getUTCHours_nonneg (t : ℤ) : 0 ≤ getUTCHours t :=
  Int.emod_nonneg _ (by norm_num)

theorem getUTCHours_lt (t : ℤ) : getUTCHours t < 24 :=
  Int.emod_lt_of_pos _ (by norm_num)

theorem getUTCMinutes_nonneg (t : ℤ) : 0 ≤ getUTCMinutes t :=
  Int.emod_nonneg _ (by norm_num)

theorem getUTCMinutes_lt (t : ℤ) : getUTCMinutes t < 60 :=
  Int.emod_lt_of_pos _ (by norm_num)

theorem jsClockHour_nonneg (t : ℤ) : 0 ≤ jsClockHour t := by
  unfold jsClockHour
  have h1 := getUTCHours_nonneg t
  split <;> omega

theorem jsClockHour_lt (t : ℤ) : jsClockHour t < 12 := by
  unfold jsClockHour
  have h1 := getUTCHours_lt t
  have h2 := getUTCHours_nonneg t
  split <;> omega

theorem signedAngleDeg_bounds (t : ℤ) :
    -(360 : ℚ) < signedAngleDeg t ∧ signedAngleDeg t < 360 := by
  unfold signedAngleDeg
  have h1 := jsClockHour_nonneg t
  have h2 := jsClockHour_lt t
  have h3 := getUTCMinutes_nonneg t
  have h4 := getUTCMinutes_lt t
  have hq1 : (0 : ℚ) ≤ (jsClockHour t : ℚ) := by exact_mod_cast h1
  have hq2 : (jsClockHour t : ℚ) ≤ 11 := by
    have : jsClockHour t ≤ 11 := by omega
    exact_mod_cast this
  have hq3 : (0 : ℚ) ≤ (getUTCMinutes t : ℚ) := by exact_mod_cast h3
  have hq4 : (getUTCMinutes t : ℚ) ≤ 59 := by
    have : getUTCMinutes t ≤ 59 := by omega
    exact_mod_cast this
  constructor <;> nlinarith

theorem angleDeg_eq_spec_of_le (t : ℤ) (h : -180 ≤ signedAngleDeg t) :
    angleDeg t = spec_angleDeg t := by
  obtain ⟨hlo, hhi⟩ := signedAngleDeg_bounds t
  unfold angleDeg spec_angleDeg jsAbs
  split_ifs <;> linarith

theorem angleDeg_of_lt_neg (t : ℤ) (h : signedAngleDeg t < -180) :
    angleDeg t = -signedAngleDeg t ∧ spec_angleDeg t = 360 + signedAngleDeg t := by
  obtain ⟨hlo, hhi⟩ := signedAngleDeg_bounds t
  constructor
  · unfold angleDeg jsAbs
    split_ifs <;> linarith
  · unfold spec_angleDeg jsAbs
    split_ifs <;> linarith

theorem getUTCHours_3540000 : getUTCHours 3540000 = 0 := by decide

theorem getUTCMinutes_3540000 : getUTCMinutes 3540000 = 59 := by decide

theorem signedAngleDeg_3540000 : signedAngleDeg 3540000 = -649 / 2 := by
  unfold signedAngleDeg jsClockHour
  rw [getUTCHours_3540000, getUTCMinutes_3540000]
  norm_num

theorem angleDeg_3540000 : angleDeg 3540000 = 649 / 2 := by
  unfold angleDeg jsAbs
  rw [signedAngleDeg_3540000]
  norm_num

/-! ### Correctness of the decimal-numeral model and the reference parser -/

theorem natToCharsAux_fuel (n : ℕ) :
    ∀ f g, n < f → n < g → natToCharsAux f n = natToCharsAux g n := by
  induction n using Nat.strong_induction_on with
  | _ n ih =>
    intro f g hf hg
    cases f with
    | zero => omega
    | succ f' =>
      cases g with
      | zero => omega
      | succ g' =>
        unfold natToCharsAux
        by_cases h0 : n = 0
        · rw [if_pos h0, if_pos h0]
        · rw [if_neg h0, if_neg h0]
          have hlt : n / 10 < n := Nat.div_lt_self (by omega) (by norm_num)
          rw [ih (n / 10) hlt f' g' (by omega) (by omega)]

theorem natToChars_step (n : ℕ) (h : n ≠ 0) :
    natToChars n = natToChars (n / 10) ++ [digitChar (n % 10)] := by
  unfold natToChars
  rw [show natToCharsAux (n + 1) n
      = if n = 0 then [] else natToCharsAux n (n / 10) ++ [digitChar (n % 10)] from rfl]
  rw [if_neg h]
  have hlt : n / 10 < n := Nat.div_lt_self (by omega) (by norm_num)
  rw [natToCharsAux_fuel (n / 10) n (n / 10 + 1) hlt (by omega)]

theorem digitVal_digitChar (d : ℕ) (h : d < 10) : digitVal (digitChar d) = d := by
  interval_cases d <;> decide

theorem isDigitCh_digitChar (d : ℕ) (h : d < 10) : isDigitCh (digitChar d) = true := by
  interval_cases d <;> decide

theorem natToChars_allDigits (n : ℕ) : ∀ c ∈ natToChars n, isDigitCh c = true := by
  induction n using Nat.strong_induction_on with
  | _ n ih =>
    by_cases h0 : n = 0
    · subst h0
      intro c hc
      simp [natToChars, natToCharsAux] at hc
    · rw [natToChars_step n h0]
      intro c hc
      rcases List.mem_append.mp hc with hc | hc
      · exact ih (n / 10) (Nat.div_lt_self (by omega) (by norm_num)) c hc
      · rw [List.mem_singleton.mp hc]
        exact isDigitCh_digitChar _ (Nat.mod_lt _ (by norm_num))

theorem valAux_natToChars (n : ℕ) :
    ∀ acc, valAux acc (natToChars n) = acc * 10 ^ (natToChars n).length + n := by
  induction n using Nat.strong_induction_on with
  | _ n ih =>
    intro acc
    by_cases h0 : n = 0
    · subst h0
      simp [natToChars, natToCharsAux, valAux]
    · rw [natToChars_step n h0]
      unfold valAux
      rw [List.foldl_append]
      have hrec := ih (n / 10) (Nat.div_lt_self (by omega) (by norm_num)) acc
      unfold valAux at hrec
      rw [hrec]
      simp only [List.foldl_cons, List.foldl_nil, List.length_append, List.length_cons,
        List.length_nil]
      rw [digitVal_digitChar _ (Nat.mod_lt _ (by norm_num))]
      rw [pow_succ]
      have : n / 10 * 10 + n % 10 = n := by omega
      ring_nf
      omega

theorem valAux_natToChars_zero (n : ℕ) : valAux 0 (natToChars n) = n := by
  rw [valAux_natToChars n 0]
  ring

theorem natToString_allDigits (n : ℕ) : ∀ c ∈ (natToString n).data, isDigitCh c = true := by
  unfold natToString
  by_cases h0 : n = 0
  · rw [if_pos h0]
    intro c hc
    rw [List.mem_singleton.mp hc]
    decide
  · rw [if_neg h0]
    exact natToChars_allDigits n

theorem natToString_ne_nil (n : ℕ) : (natToString n).data ≠ [] := by
  unfold natToString
  by_cases h0 : n = 0
  · rw [if_pos h0]
    simp
  · rw [if_neg h0, natToChars_step n h0]
    simp

theorem valAux_natToString (n : ℕ) : valAux 0 (natToString n).data = n := by
  unfold natToString
  by_cases h0 : n = 0
  · rw [if_pos h0, h0]
    decide
  · rw [if_neg h0]
    exact valAux_natToChars_zero n

theorem readNatAux_spec (D : List Char) :
    ∀ (rest : List Char) (acc : ℕ), (∀ c ∈ D, isDigitCh c = true) → headNotDigit rest →
      readNatAux (D ++ rest) acc = (valAux acc D, rest) := by
  induction D with
  | nil =>
    intro rest acc _ hrest
    cases rest with
    | nil => rfl
    | cons c cs =>
      have hc : isDigitCh c = false := hrest c rfl
      simp only [List.nil_append, readNatAux, hc, Bool.false_eq_true, if_false]
      rfl
  | cons d D' ih =>
    intro rest acc hD hrest
    have hd : isDigitCh d = true := hD d (List.mem_cons_self d D')
    simp only [List.cons_append, readNatAux, hd, if_true]
    rw [show D'.append rest = D' ++ rest from rfl,
      ih rest (acc * 10 + digitVal d) (fun c hc => hD c (List.mem_cons_of_mem d hc)) hrest]
    rfl

theorem expectNat_spec (D rest : List Char) (hne : D ≠ [])
    (hD : ∀ c ∈ D, isDigitCh c = true) (hrest : headNotDigit rest) :
    expectNat (D ++ rest) = some (valAux 0 D, rest) := by
  cases D with
  | nil => exact absurd rfl hne
  | cons d D' =>
    have hd : isDigitCh d = true := hD d (List.mem_cons_self d D')
    simp only [List.cons_append, expectNat, hd, if_true]
    rw [show (d :: (D' ++ rest)) = ((d :: D') ++ rest) from rfl,
      readNatAux_spec (d :: D') rest 0 hD hrest]

theorem expectSep_spec (x : Char) (rest : List Char) :
    expectSep x (x :: rest) = some rest := by
  simp [expectSep]

theorem headNotDigit_cons (x : Char) (l : List Char) (hx : isDigitCh x = false) :
    headNotDigit (x :: l) := by
  intro c hc
  simp only [List.head?, Option.some.injEq] at hc
  rw [← hc]
  exact hx

theorem headNotDigit_nil : headNotDigit [] := by
  intro c hc
  simp [List.head?] at hc

theorem valAux_cons_zero (l : List Char) :
    valAux 0 (Char.ofNat 48 :: l) = valAux 0 l := by
  unfold valAux
  rw [List.foldl_cons]
  norm_num
  rw [show digitVal (Char.ofNat 48) = 0 from by decide]

theorem padLeft2_ne_nil (k : ℕ) : (padLeft2 k).data ≠ [] := by
  unfold padLeft2
  split_ifs
  · rw [String.data_append]
    simp [show ("0" : String).data = [Char.ofNat 48] from rfl]
  · exact natToString_ne_nil k

theorem padLeft2_allDigits (k : ℕ) : ∀ c ∈ (padLeft2 k).data, isDigitCh c = true := by
  unfold padLeft2
  split_ifs
  · rw [String.data_append]
    intro c hc
    rcases List.mem_append.mp hc with hc | hc
    · rw [show ("0" : String).data = [Char.ofNat 48] from rfl] at hc
      rw [List.mem_singleton.mp hc]
      decide
    · exact natToString_allDigits k c hc
  · exact natToString_allDigits k

theorem padLeft2_val (k : ℕ) : valAux 0 (padLeft2 k).data = k := by
  unfold padLeft2
  split_ifs
  · rw [String.data_append,
      show ("0" : String).data = [Char.ofNat 48] from rfl, List.singleton_append,
      valAux_cons_zero]
    exact valAux_natToString k
  · exact valAux_natToString k

theorem padLeft3_ne_nil (k : ℕ) : (padLeft3 k).data ≠ [] := by
  unfold padLeft3
  split_ifs
  · rw [String.data_append]
    simp [show ("00" : String).data = [Char.ofNat 48, Char.ofNat 48] from rfl]
  · rw [String.data_append]
    simp [show ("0" : String).data = [Char.ofNat 48] from rfl]
  · exact natToString_ne_nil k

theorem padLeft3_allDigits (k : ℕ) : ∀ c ∈ (padLeft3 k).data, isDigitCh c = true := by
  unfold padLeft3
  split_ifs
  · rw [String.data_append]
    intro c hc
    rcases List.mem_append.mp hc with hc | hc
    · rw [show ("00" : String).data = [Char.ofNat 48, Char.ofNat 48] from rfl] at hc
      have hc0 : c = Char.ofNat 48 := by simpa using hc
      rw [hc0]
      decide
    · exact natToString_allDigits k c hc
  · rw [String.data_append]
    intro c hc
    rcases List.mem_append.mp hc with hc | hc
    · rw [show ("0" : String).data = [Char.ofNat 48] from rfl] at hc
      rw [List.mem_singleton.mp hc]
      decide
    · exact natToString_allDigits k c hc
  · exact natToString_allDigits k

theorem padLeft3_val (k : ℕ) : valAux 0 (padLeft3 k).data = k := by
  unfold padLeft3
  split_ifs
  · rw [String.data_append,
      show ("00" : String).data = [Char.ofNat 48, Char.ofNat 48] from rfl]
    rw [show Char.ofNat 48 :: [Char.ofNat 48] ++ (natToString k).data
        = Char.ofNat 48 :: (Char.ofNat 48 :: (natToString k).data) from rfl]
    rw [valAux_cons_zero, valAux_cons_zero]
    exact valAux_natToString k
  · rw [String.data_append,
      show ("0" : String).data = [Char.ofNat 48] from rfl, List.singleton_append,
      valAux_cons_zero]
    exact valAux_natToString k
  · exact valAux_natToString k

/-- The reference parser inverts the spec's formatting: parsing
`spec_formatTimespan d` recovers exactly `d`. -/
theorem parseTimeSpan_spec_format (d : ℕ) :
    parseTimeSpan (spec_formatTimespan d) = some d := by
  have hdata : (spec_formatTimespan d).data =
      (padLeft2 (d / 3600000)).data ++ (':' ::
        ((padLeft2 (d % 3600000 / 60000)).data ++ (':' ::
          ((padLeft2 (d % 3600000 % 60000 / 1000)).data ++ ('.' ::
            (padLeft3 (d % 3600000 % 60000 % 1000)).data))))) := by
    unfold spec_formatTimespan
    simp [String.data_append, List.append_assoc,
      show (":" : String).data = [':'] from rfl,
      show ("." : String).data = ['.'] from rfl]
  unfold parseTimeSpan
  rw [hdata]
  rw [expectNat_spec _ _ (padLeft2_ne_nil _) (padLeft2_allDigits _)
    (headNotDigit_cons ':' _ (by decide))]
  simp only [Option.bind_eq_bind, Option.some_bind]
  rw [expectSep_spec]
  simp only [Option.bind_eq_bind, Option.some_bind]
  rw [expectNat_spec _ _ (padLeft2_ne_nil _) (padLeft2_allDigits _)
    (headNotDigit_cons ':' _ (by decide))]
  simp only [Option.bind_eq_bind, Option.some_bind]
  rw [expectSep_spec]
  simp only [Option.bind_eq_bind, Option.some_bind]
  rw [expectNat_spec _ _ (padLeft2_ne_nil _) (padLeft2_allDigits _)
    (headNotDigit_cons '.' _ (by decide))]
  simp only [Option.bind_eq_bind, Option.some_bind]
  rw [expectSep_spec]
  simp only [Option.bind_eq_bind, Option.some_bind]
  rw [← List.append_nil ((padLeft3 (d % 3600000 % 60000 % 1000)).data)]
  rw [expectNat_spec _ _ (padLeft3_ne_nil _) (padLeft3_allDigits _) headNotDigit_nil]
  simp only [Option.bind_eq_bind, Option.some_bind, if_pos]
  rw [padLeft2_val, padLeft2_val, padLeft2_val, padLeft3_val]
  congr 1
  omega

/-! ### The modelled date-string parser: completeness over the grammar -/

theorem isDigitCh_bounds (c : Char) (h : isDigitCh c = true) :
    48 ≤ c.toNat ∧ c.toNat ≤ 57 := by
  unfold isDigitCh at h
  simp only [Bool.and_eq_true, decide_eq_true_eq] at h
  exact h

theorem digitVal_lt (c : Char) (h : isDigitCh c = true) : digitVal c < 10 := by
  obtain ⟨h1, h2⟩ := isDigitCh_bounds c h
  unfold digitVal
  omega

theorem digitChar_digitVal (c : Char) (h : isDigitCh c = true) :
    digitChar (digitVal c) = c := by
  obtain ⟨h1, h2⟩ := isDigitCh_bounds c h
  unfold digitChar digitVal
  rw [show 48 + (c.toNat - 48) = c.toNat from by omega]
  exact Char.ofNat_toNat c

theorem read2_pad2c (n : ℕ) (r : List Char) (h : n ≤ 99) :
    read2 (pad2c n ++ r) = some (n, r) := by
  have h1 : n / 10 % 10 < 10 := Nat.mod_lt _ (by norm_num)
  have h2 : n % 10 < 10 := Nat.mod_lt _ (by norm_num)
  show read2 (digitChar (n / 10 % 10) :: digitChar (n % 10) :: r) = some (n, r)
  simp only [read2, isDigitCh_digitChar _ h1, isDigitCh_digitChar _ h2, Bool.and_self,
    if_true]
  rw [digitVal_digitChar _ h1, digitVal_digitChar _ h2,
    show n / 10 % 10 * 10 + n % 10 = n from by omega]

theorem read4_pad4c (n : ℕ) (r : List Char) (h : n ≤ 9999) :
    read4 (pad4c n ++ r) = some (n, r) := by
  have h1 : n / 1000 % 10 < 10 := Nat.mod_lt _ (by norm_num)
  have h2 : n / 100 % 10 < 10 := Nat.mod_lt _ (by norm_num)
  have h3 : n / 10 % 10 < 10 := Nat.mod_lt _ (by norm_num)
  have h4 : n % 10 < 10 := Nat.mod_lt _ (by norm_num)
  show read4 (digitChar (n / 1000 % 10) :: digitChar (n / 100 % 10) ::
    digitChar (n / 10 % 10) :: digitChar (n % 10) :: r) = some (n, r)
  simp only [read4, isDigitCh_digitChar _ h1, isDigitCh_digitChar _ h2,
    isDigitCh_digitChar _ h3, isDigitCh_digitChar _ h4, Bool.and_self, if_true]
  rw [digitVal_digitChar _ h1, digitVal_digitChar _ h2, digitVal_digitChar _ h3,
    digitVal_digitChar _ h4,
    show n / 1000 % 10 * 1000 + n / 100 % 10 * 100 + n / 10 % 10 * 10 + n % 10 = n
      from by omega]

theorem parseOffset_renderOffset (off : Option (Bool × ℕ × ℕ))
    (hb : ∀ sg oh om, off = some (sg, oh, om) → oh ≤ 23 ∧ om ≤ 59) :
    parseOffset (renderOffset off) = some off := by
  cases off with
  | none => rfl
  | some p =>
    obtain ⟨sg, oh, om⟩ := p
    obtain ⟨h1, h2⟩ := hb sg oh om rfl
    have hr2 : read2 (pad2c oh ++ ':' :: pad2c om) = some (oh, ':' :: pad2c om) :=
      read2_pad2c oh _ (by omega)
    have hr2b : read2 (pad2c om ++ ([] : List Char)) = some (om, []) :=
      read2_pad2c om [] (by omega)
    rw [List.append_nil] at hr2b
    cases sg with
    | false =>
      show parseOffset ('+' :: (pad2c oh ++ ':' :: pad2c om)) = some (some (false, oh, om))
      unfold parseOffset
      dsimp only
      rw [if_neg (by decide), if_pos (Or.inl rfl), hr2]
      dsimp only
      rw [expectSep_spec]
      dsimp only
      rw [hr2b]
      dsimp only
      rw [if_pos ⟨rfl, h1, h2⟩]
      rfl
    | true =>
      show parseOffset ('-' :: (pad2c oh ++ ':' :: pad2c om)) = some (some (true, oh, om))
      unfold parseOffset
      dsimp only
      rw [if_neg (by decide), if_pos (Or.inr rfl), hr2]
      dsimp only
      rw [expectSep_spec]
      dsimp only
      rw [hr2b]
      dsimp only
      rw [if_pos ⟨rfl, h1, h2⟩]
      rfl

theorem wfIsoFields_spec (f : IsoFields) (hwf : wfIsoFields f = true) :
    f.year ≤ 9999 ∧ 1 ≤ f.month ∧ f.month ≤ 12 ∧ 1 ≤ f.day ∧ f.day ≤ 31 ∧
    f.hour ≤ 23 ∧ f.minute ≤ 59 ∧ f.second ≤ 59 ∧
    (∀ sg oh om, f.offset = some (sg, oh, om) → oh ≤ 23 ∧ om ≤ 59) := by
  unfold wfIsoFields validFields at hwf
  simp only [Bool.and_eq_true, decide_eq_true_eq] at hwf
  obtain ⟨hv, hoff⟩ := hwf
  refine ⟨by omega, by omega, by omega, by omega, by omega, by omega, by omega, by omega,
    ?_⟩
  intro sg oh om heq
  rw [heq] at hoff
  simp only [Bool.and_eq_true, decide_eq_true_eq] at hoff
  exact hoff

theorem parseIsoChars_render (y mo dy hh mi ss : ℕ) (off : Option (Bool × ℕ × ℕ))
    (hy : y ≤ 9999) (hmo1 : 1 ≤ mo) (hmo2 : mo ≤ 12) (hdy1 : 1 ≤ dy) (hdy2 : dy ≤ 31)
    (hhh : hh ≤ 23) (hmi : mi ≤ 59) (hss : ss ≤ 59)
    (hoff : ∀ sg oh om, off = some (sg, oh, om) → oh ≤ 23 ∧ om ≤ 59) :
    parseIsoChars (renderIso ⟨y, mo, dy, hh, mi, ss, off⟩).data
      = some (isoInstant ⟨y, mo, dy, hh, mi, ss, off⟩) := by
  have hv : validFields y mo dy hh mi ss = true := by
    simp only [validFields, Bool.and_eq_true, decide_eq_true_eq]
    omega
  show parseIsoChars (pad4c y ++ '-' :: (pad2c mo ++ '-' :: (pad2c dy ++ 'T' ::
    (pad2c hh ++ ':' :: (pad2c mi ++ ':' :: (pad2c ss ++ renderOffset off)))))) = _
  unfold parseIsoChars
  rw [read4_pad4c y _ hy]
  dsimp only
  rw [expectSep_spec]
  dsimp only
  rw [read2_pad2c mo _ (by omega)]
  dsimp only
  rw [expectSep_spec]
  dsimp only
  rw [read2_pad2c dy _ (by omega)]
  dsimp only
  rw [expectSep_spec]
  dsimp only
  rw [read2_pad2c hh _ (by omega)]
  dsimp only
  rw [expectSep_spec]
  dsimp only
  rw [read2_pad2c mi _ (by omega)]
  dsimp only
  rw [expectSep_spec]
  dsimp only
  rw [read2_pad2c ss _ (by omega)]
  dsimp only
  rw [parseOffset_renderOffset off hoff]
  dsimp only
  rw [if_pos hv]
  rfl

theorem jsNewDate_render (f : IsoFields) (hwf : wfIsoFields f = true) :
    jsNewDate (renderIso f) = some (isoInstant f) := by
  obtain ⟨y, mo, dy, hh, mi, ss, off⟩ := f
  obtain ⟨hy, hmo1, hmo2, hdy1, hdy2, hhh, hmi, hss, hoff⟩ :=
    wfIsoFields_spec _ hwf
  exact parseIsoChars_render y mo dy hh mi ss off hy hmo1 hmo2 hdy1 hdy2 hhh hmi hss hoff

/-! ### The modelled date-string parser: soundness (only grammar strings parse) -/

theorem expectSep_sound (x : Char) (l r : List Char) (h : expectSep x l = some r) :
    l = x :: r := by
  cases l with
  | nil => simp [expectSep] at h
  | cons c cs =>
    unfold expectSep at h
    dsimp only at h
    split_ifs at h with hc
    · injection h with h'
      rw [hc, h']

theorem read2_sound (l : List Char) (n : ℕ) (r : List Char) (h : read2 l = some (n, r)) :
    n ≤ 99 ∧ l = pad2c n ++ r := by
  rcases l with _ | ⟨a, _ | ⟨b, t⟩⟩
  · simp [read2] at h
  · simp [read2] at h
  · unfold read2 at h
    dsimp only at h
    split_ifs at h with hab
    · simp only [Bool.and_eq_true] at hab
      obtain ⟨ha, hb⟩ := hab
      injection h with h'
      injection h' with hn hr
      have hva := digitVal_lt a ha
      have hvb := digitVal_lt b hb
      constructor
      · omega
      · unfold pad2c
        rw [← hn, ← hr]
        rw [show (digitVal a * 10 + digitVal b) / 10 % 10 = digitVal a from by omega,
          show (digitVal a * 10 + digitVal b) % 10 = digitVal b from by omega,
          digitChar_digitVal a ha, digitChar_digitVal b hb]
        rfl

theorem read4_sound (l : List Char) (n : ℕ) (r : List Char) (h : read4 l = some (n, r)) :
    n ≤ 9999 ∧ l = pad4c n ++ r := by
  rcases l with _ | ⟨a, _ | ⟨b, _ | ⟨c, _ | ⟨d, t⟩⟩⟩⟩
  · simp [read4] at h
  · simp [read4] at h
  · simp [read4] at h
  · simp [read4] at h
  · unfold read4 at h
    dsimp only at h
    split_ifs at h with habcd
    · simp only [Bool.and_eq_true] at habcd
      obtain ⟨⟨⟨ha, hb⟩, hc⟩, hd⟩ := habcd
      injection h with h'
      injection h' with hn hr
      have hva := digitVal_lt a ha
      have hvb := digitVal_lt b hb
      have hvc := digitVal_lt c hc
      have hvd := digitVal_lt d hd
      constructor
      · omega
      · unfold pad4c
        rw [← hn, ← hr]
        rw [show (digitVal a * 1000 + digitVal b * 100 + digitVal c * 10 + digitVal d)
              / 1000 % 10 = digitVal a from by omega,
          show (digitVal a * 1000 + digitVal b * 100 + digitVal c * 10 + digitVal d)
              / 100 % 10 = digitVal b from by omega,
          show (digitVal a * 1000 + digitVal b * 100 + digitVal c * 10 + digitVal d)
              / 10 % 10 = digitVal c from by omega,
          show (digitVal a * 1000 + digitVal b * 100 + digitVal c * 10 + digitVal d)
              % 10 = digitVal d from by omega,
          digitChar_digitVal a ha, digitChar_digitVal b hb, digitChar_digitVal c hc,
          digitChar_digitVal d hd]
        rfl

theorem parseOffset_sound (l : List Char) (off : Option (Bool × ℕ × ℕ))
    (h : parseOffset l = some off) :
    (∀ sg oh om, off = some (sg, oh, om) → oh ≤ 23 ∧ om ≤ 59) ∧ l = renderOffset off := by
  rcases l with _ | ⟨c, r⟩
  · simp [parseOffset] at h
  · unfold parseOffset at h
    dsimp only at h
    split_ifs at h with hz hnil hpm
    · injection h with h'
      subst h'
      constructor
      · intro sg oh om heq
        exact absurd heq (by simp)
      · rw [hz, hnil]
        rfl
    · cases hr2 : read2 r with
      | none => rw [hr2] at h; simp at h
      | some p =>
        obtain ⟨oh, r1⟩ := p
        rw [hr2] at h
        dsimp only at h
        cases hsep : expectSep ':' r1 with
        | none => rw [hsep] at h; simp at h
        | some r2 =>
          rw [hsep] at h
          dsimp only at h
          cases hr2b : read2 r2 with
          | none => rw [hr2b] at h; simp at h
          | some q =>
            obtain ⟨om, r3⟩ := q
            rw [hr2b] at h
            dsimp only at h
            split_ifs at h with hcond
            · obtain ⟨hnil3, h1, h2⟩ := hcond
              injection h with h'
              subst h'
              constructor
              · intro sg oh' om' heq
                injection heq with heq'
                injection heq' with e1 e2
                injection e2 with e2a e2b
                rw [← e2a, ← e2b]
                exact ⟨h1, h2⟩
              · obtain ⟨hoh, hr⟩ := read2_sound r oh r1 hr2
                have hr1 : r1 = ':' :: r2 := expectSep_sound ':' r1 r2 hsep
                obtain ⟨hom, hr2c⟩ := read2_sound r2 om r3 hr2b
                subst hnil3
                rw [List.append_nil] at hr2c
                rw [hr, hr1, hr2c]
                unfold renderOffset
                congr 1
                rcases hpm with hc | hc <;> rw [hc] <;> decide

theorem parseIsoChars_sound (l : List Char) (t : ℤ) (h : parseIsoChars l = some t) :
    ∃ f : IsoFields, wfIsoFields f = true ∧ l = (renderIso f).data ∧ t = isoInstant f := by
  unfold parseIsoChars at h
  cases h4 : read4 l with
  | none => rw [h4] at h; simp at h
  | some p0 =>
    obtain ⟨y, r1⟩ := p0
    rw [h4] at h
    dsimp only at h
    cases hs1 : expectSep '-' r1 with
    | none => rw [hs1] at h; simp at h
    | some r2 =>
      rw [hs1] at h
      dsimp only at h
      cases h2a : read2 r2 with
      | none => rw [h2a] at h; simp at h
      | some p1 =>
        obtain ⟨mo, r3⟩ := p1
        rw [h2a] at h
        dsimp only at h
        cases hs2 : expectSep '-' r3 with
        | none => rw [hs2] at h; simp at h
        | some r4 =>
          rw [hs2] at h
          dsimp only at h
          cases h2b : read2 r4 with
          | none => rw [h2b] at h; simp at h
          | some p2 =>
            obtain ⟨dy, r5⟩ := p2
            rw [h2b] at h
            dsimp only at h
            cases hs3 : expectSep 'T' r5 with
            | none => rw [hs3] at h; simp at h
            | some r6 =>
              rw [hs3] at h
              dsimp only at h
              cases h2c : read2 r6 with
              | none => rw [h2c] at h; simp at h
              | some p3 =>
                obtain ⟨hh, r7⟩ := p3
                rw [h2c] at h
                dsimp only at h
                cases hs4 : expectSep ':' r7 with
                | none => rw [hs4] at h; simp at h
                | some r8 =>
                  rw [hs4] at h
                  dsimp only at h
                  cases h2d : read2 r8 with
                  | none => rw [h2d] at h; simp at h
                  | some p4 =>
                    obtain ⟨mi, r9⟩ := p4
                    rw [h2d] at h
                    dsimp only at h
                    cases hs5 : expectSep ':' r9 with
                    | none => rw [hs5] at h; simp at h
                    | some r10 =>
                      rw [hs5] at h
                      dsimp only at h
                      cases h2e : read2 r10 with
                      | none => rw [h2e] at h; simp at h
                      | some p5 =>
                        obtain ⟨ss, r11⟩ := p5
                        rw [h2e] at h
                        dsimp only at h
                        cases hoff : parseOffset r11 with
                        | none => rw [hoff] at h; simp at h
                        | some off =>
                          rw [hoff] at h
                          dsimp only at h
                          split_ifs at h with hv
                          · injection h with ht
                            obtain ⟨hbounds, hr11⟩ := parseOffset_sound r11 off hoff
                            obtain ⟨hy, hl⟩ := read4_sound l y r1 h4
                            have e1 : r1 = '-' :: r2 := expectSep_sound _ _ _ hs1
                            obtain ⟨hmo, e2⟩ := read2_sound r2 mo r3 h2a
                            have e3 : r3 = '-' :: r4 := expectSep_sound _ _ _ hs2
                            obtain ⟨hdy, e4⟩ := read2_sound r4 dy r5 h2b
                            have e5 : r5 = 'T' :: r6 := expectSep_sound _ _ _ hs3
                            obtain ⟨hhh, e6⟩ := read2_sound r6 hh r7 h2c
                            have e7 : r7 = ':' :: r8 := expectSep_sound _ _ _ hs4
                            obtain ⟨hmi, e8⟩ := read2_sound r8 mi r9 h2d
                            have e9 : r9 = ':' :: r10 := expectSep_sound _ _ _ hs5
                            obtain ⟨hss, e10⟩ := read2_sound r10 ss r11 h2e
                            refine ⟨⟨y, mo, dy, hh, mi, ss, off⟩, ?_, ?_, ?_⟩
                            · unfold wfIsoFields
                              rw [hv]
                              cases off with
                              | none => rfl
                              | some po =>
                                obtain ⟨sg, oh, om⟩ := po
                                obtain ⟨hb1, hb2⟩ := hbounds sg oh om rfl
                                simp [hb1, hb2]
                            · rw [hl, e1, e2, e3, e4, e5, e6, e7, e8, e9, e10, hr11]
                              rfl
                            · rw [← ht]
                              rfl

/-! ## Claim theorems -/

/-- C3: for end ≥ start, `timeSpanToString` returns exactly the spec's
decomposition of the span `end - start` into hours, minutes, seconds and
milliseconds by successive integer division with cascading remainders,
zero-padded to 2/2/2/3 digits (hours growing beyond 2 digits only when
≥ 100) and joined with `:`, `:`, `.`. -/
theorem C3_timeSpanToString_matches_spec (startDate endDate : ℤ)
    (h : startDate ≤ endDate) :
    timeSpanToString startDate endDate = spec_formatTimespan (endDate - startDate).toNat :=
  timeSpanToString_eq_spec startDate endDate h

/-- Witness for C3 at the spec's last example: a span of 05:20:10.453
(19210453 ms). -/
theorem C3_timeSpanToString_matches_spec_check :
    (0 : ℤ) ≤ 19210453 ∧
    timeSpanToString 0 19210453 = spec_formatTimespan ((19210453 : ℤ) - 0).toNat ∧
    spec_formatTimespan 19210453 = "05:20:10.453" :=
  ⟨by decide, C3_timeSpanToString_matches_spec 0 19210453 (by decide), by decide⟩

/-- C5: formatting a non-negative span and re-parsing it with the reference
parser for the `HH:mm:ss.sss` format recovers exactly the original
millisecond count. -/
theorem C5_format_parse_roundtrip (startDate endDate : ℤ) (h : startDate ≤ endDate) :
    parseTimeSpan (timeSpanToString startDate endDate) = some (endDate - startDate).toNat := by
  rw [timeSpanToString_eq_spec startDate endDate h, parseTimeSpan_spec_format]

/-- Witness for C5 at the span 19210453 ms. -/
theorem C5_format_parse_roundtrip_check :
    (0 : ℤ) ≤ 19210453 ∧
    parseTimeSpan (timeSpanToString 0 19210453) = some ((19210453 : ℤ) - 0).toNat ∧
    ((19210453 : ℤ) - 0).toNat = 19210453 :=
  ⟨by decide, C5_format_parse_roundtrip 0 19210453 (by decide), by decide⟩

/-- C9: a zero-length span renders as `"00:00:00.000"`: every component
falls through to its zero-padded default. -/
theorem C9_zero_span (t : ℤ) : timeSpanToString t t = "00:00:00.000" := by
  rw [timeSpanToString_eq_spec t t le_rfl, sub_self]
  decide

/-- C1: the spec claims the result of `angleBetweenClockHands` is always within
`[0, π]`, but the code applies the `360 - angle` fold before `Math.abs`, so at
UTC time 00:59 (time value 3540000) the signed angle `-324.5°` escapes the fold
and the function returns `324.5 * π / 180 > π`.  This refutes the claimed bound
(code bug: the code contradicts its own documented clock-angle contract). -/
theorem C1_angle_exceeds_pi_at_0059 : Real.pi < angleBetweenClockHands 3540000 := by
  unfold angleBetweenClockHands
  rw [angleDeg_3540000]
  have hπ := Real.pi_pos
  push_cast
  nlinarith

/-- C2 counterexample: at UTC time 00:59 the code's result differs from the
spec's algorithm (absolute value first, then the `360 -` fold), so the claim
that the code computes exactly the spec's algorithm is false. -/
theorem C2_counterexample_0059 :
    angleBetweenClockHands 3540000 ≠ spec_angleBetweenClockHands 3540000 := by
  have hspec : spec_angleDeg 3540000 = 71 / 2 := by
    unfold spec_angleDeg jsAbs
    rw [signedAngleDeg_3540000]
    norm_num
  unfold angleBetweenClockHands spec_angleBetweenClockHands
  rw [angleDeg_3540000, hspec]
  intro h
  have hπ := Real.pi_pos
  push_cast at h
  nlinarith

/-- C2 (amended): the code folds by `360 -` BEFORE taking the absolute value,
while the spec's algorithm takes the absolute value first.  The two agree
exactly when the signed angle `(h*60+m)/2 - 6*m` is at least `-180`; when it is
below `-180` the code returns `|angle| * π / 180` while the spec's algorithm
returns `(360 - |angle|) * π / 180`. -/
theorem C2_fold_applied_before_abs (t : ℤ) :
    (-180 ≤ signedAngleDeg t → angleBetweenClockHands t = spec_angleBetweenClockHands t) ∧
    (signedAngleDeg t < -180 →
      angleBetweenClockHands t = ((-signedAngleDeg t : ℚ) : ℝ) * Real.pi / 180 ∧
      spec_angleBetweenClockHands t = ((360 + signedAngleDeg t : ℚ) : ℝ) * Real.pi / 180) := by
  constructor
  · intro h
    unfold angleBetweenClockHands spec_angleBetweenClockHands
    rw [angleDeg_eq_spec_of_le t h]
  · intro h
    obtain ⟨h1, h2⟩ := angleDeg_of_lt_neg t h
    constructor
    · unfold angleBetweenClockHands
      rw [h1]
    · unfold spec_angleBetweenClockHands
      rw [h2]

/-- Witness for C2's amended theorem: both hypotheses discharged at concrete
time values (00:00 for the agreeing case, 00:59 for the diverging case). -/
theorem C2_fold_applied_before_abs_check :
    (-180 ≤ signedAngleDeg 0 ∧
      angleBetweenClockHands 0 = spec_angleBetweenClockHands 0) ∧
    (signedAngleDeg 3540000 < -180 ∧
      angleBetweenClockHands 3540000 =
        ((-signedAngleDeg 3540000 : ℚ) : ℝ) * Real.pi / 180) := by
  have h0 : signedAngleDeg 0 = 0 := by
    unfold signedAngleDeg jsClockHour
    rw [show getUTCHours 0 = 0 by decide, show getUTCMinutes 0 = 0 by decide]
    norm_num
  have ha : -180 ≤ signedAngleDeg 0 := by rw [h0]; norm_num
  have hb : signedAngleDeg 3540000 < -180 := by rw [signedAngleDeg_3540000]; norm_num
  exact ⟨⟨ha, (C2_fold_applied_before_abs 0).1 ha⟩,
         ⟨hb, ((C2_fold_applied_before_abs 3540000).2 hb).1⟩⟩

/-- C4: `isLeapYear` returns true iff the year is divisible by 4 and not by
100, or divisible by 400; with the spec's reference table at 1900, 2000, 2001,
2012 and 2015. -/
theorem C4_isLeapYear_rule :
    (∀ year : ℤ, isLeapYear year = true ↔ ((4 ∣ year ∧ ¬(100 ∣ year)) ∨ 400 ∣ year)) ∧
    isLeapYear 1900 = false ∧ isLeapYear 2000 = true ∧ isLeapYear 2001 = false ∧
    isLeapYear 2012 = true ∧ isLeapYear 2015 = false := by
  refine ⟨?_, by decide, by decide, by decide, by decide, by decide⟩
  intro year
  have h4 : year.tmod 4 = 0 ↔ (4 : ℤ) ∣ year :=
    ⟨Int.dvd_of_tmod_eq_zero, Int.tmod_eq_zero_of_dvd⟩
  have h100 : year.tmod 100 = 0 ↔ (100 : ℤ) ∣ year :=
    ⟨Int.dvd_of_tmod_eq_zero, Int.tmod_eq_zero_of_dvd⟩
  have h400 : year.tmod 400 = 0 ↔ (400 : ℤ) ∣ year :=
    ⟨Int.dvd_of_tmod_eq_zero, Int.tmod_eq_zero_of_dvd⟩
  unfold isLeapYear
  split_ifs with h1 h2 h3 <;> simp_all
  omega

/-- C8: the spec's four examples: 2016-03-05 00:00 UTC ↦ 0,
2016-04-05 03:00 UTC ↦ π/2, 2016-04-05 18:00 UTC ↦ π,
2016-04-05 21:00 UTC ↦ π/2 (time values of the four instants). -/
theorem C8_spec_examples :
    angleBetweenClockHands 1457136000000 = 0 ∧
    angleBetweenClockHands 1459825200000 = Real.pi / 2 ∧
    angleBetweenClockHands 1459879200000 = Real.pi ∧
    angleBetweenClockHands 1459890000000 = Real.pi / 2 := by
  have e1 : angleDeg 1457136000000 = 0 := by
    unfold angleDeg signedAngleDeg jsClockHour jsAbs
    rw [show getUTCHours 1457136000000 = 0 by decide,
        show getUTCMinutes 1457136000000 = 0 by decide]
    norm_num
  have e2 : angleDeg 1459825200000 = 90 := by
    unfold angleDeg signedAngleDeg jsClockHour jsAbs
    rw [show getUTCHours 1459825200000 = 3 by decide,
        show getUTCMinutes 1459825200000 = 0 by decide]
    norm_num
  have e3 : angleDeg 1459879200000 = 180 := by
    unfold angleDeg signedAngleDeg jsClockHour jsAbs
    rw [show getUTCHours 1459879200000 = 18 by decide,
        show getUTCMinutes 1459879200000 = 0 by decide]
    norm_num
  have e4 : angleDeg 1459890000000 = 90 := by
    unfold angleDeg signedAngleDeg jsClockHour jsAbs
    rw [show getUTCHours 1459890000000 = 21 by decide,
        show getUTCMinutes 1459890000000 = 0 by decide]
    norm_num
  refine ⟨?_, ?_, ?_, ?_⟩
  · unfold angleBetweenClockHands
    rw [e1]
    push_cast
    ring
  · unfold angleBetweenClockHands
    rw [e2]
    push_cast
    ring
  · unfold angleBetweenClockHands
    rw [e3]
    push_cast
    ring
  · unfold angleBetweenClockHands
    rw [e4]
    push_cast
    ring

/-- C6: for every input string that does not conform to the modelled date
grammar, both `parseDataFromRfc2822` and `parseDataFromIso8601` (each just
`new Date(value)`) return the invalid-value sentinel (`none`, the model of
JS `Invalid Date`) — they never coerce the input to an arbitrary default
date. -/
theorem C6_nonconforming_yields_sentinel (s : String) (hnc : ¬ conformsIso s) :
    parseDataFromRfc2822 s = none ∧ parseDataFromIso8601 s = none := by
  cases hp : jsNewDate s with
  | none => exact ⟨hp, hp⟩
  | some t =>
    obtain ⟨f, hwf, hdata, _⟩ := parseIsoChars_sound s.data t hp
    exact absurd ⟨f, hwf, String.ext hdata⟩ hnc

/-- Witness for C6: the string `"hello"` does not conform to the grammar, and
both parse functions return the sentinel on it. -/
theorem C6_nonconforming_yields_sentinel_check :
    ¬ conformsIso "hello" ∧
    parseDataFromRfc2822 "hello" = none ∧ parseDataFromIso8601 "hello" = none := by
  have hnone : jsNewDate "hello" = none := by decide
  have hnc : ¬ conformsIso "hello" := by
    rintro ⟨f, hwf, hs⟩
    have hr := jsNewDate_render f hwf
    rw [← hs, hnone] at hr
    exact absurd hr (by simp)
  exact ⟨hnc, C6_nonconforming_yields_sentinel "hello" hnc⟩

/-- C7: the parsed value preserves the instant represented, independent of the
offset notation used in the input: any two well-formed strings of the
modelled grammar that denote the same instant parse, by either function, to
the same value — namely that instant. -/
theorem C7_offset_notation_preserves_instant (f1 f2 : IsoFields)
    (h1 : wfIsoFields f1 = true) (h2 : wfIsoFields f2 = true)
    (heq : isoInstant f1 = isoInstant f2) :
    parseDataFromIso8601 (renderIso f1) = parseDataFromIso8601 (renderIso f2) ∧
    parseDataFromRfc2822 (renderIso f1) = parseDataFromRfc2822 (renderIso f2) ∧
    parseDataFromIso8601 (renderIso f1) = some (isoInstant f1) := by
  have e1 : jsNewDate (renderIso f1) = some (isoInstant f1) := jsNewDate_render f1 h1
  have e2 : jsNewDate (renderIso f2) = some (isoInstant f2) := jsNewDate_render f2 h2
  refine ⟨?_, ?_, e1⟩
  · show jsNewDate (renderIso f1) = jsNewDate (renderIso f2)
    rw [e1, e2, heq]
  · show jsNewDate (renderIso f1) = jsNewDate (renderIso f2)
    rw [e1, e2, heq]

/-- Witness for C7: `2016-01-19T16:07:37+08:00` and `2016-01-19T08:07:37Z`
denote the same instant and parse to the same value. -/
theorem C7_offset_notation_preserves_instant_check :
    wfIsoFields ⟨2016, 1, 19, 16, 7, 37, some (false, 8, 0)⟩ = true ∧
    wfIsoFields ⟨2016, 1, 19, 8, 7, 37, none⟩ = true ∧
    isoInstant ⟨2016, 1, 19, 16, 7, 37, some (false, 8, 0)⟩
      = isoInstant ⟨2016, 1, 19, 8, 7, 37, none⟩ ∧
    parseDataFromIso8601 (renderIso ⟨2016, 1, 19, 16, 7, 37, some (false, 8, 0)⟩)
      = parseDataFromIso8601 (renderIso ⟨2016, 1, 19, 8, 7, 37, none⟩) := by
  refine ⟨by decide, by decide, by decide, ?_⟩
  exact (C7_offset_notation_preserves_instant _ _ (by decide) (by decide) (by decide)).1

/-- C10: `angleBetweenClockHands` reads only the UTC hour and the UTC minute
of its argument, so any two time values agreeing on those two fields produce
the same result. -/
theorem C10_depends_only_on_hour_and_minute (t1 t2 : ℤ)
    (hh : getUTCHours t1 = getUTCHours t2)
    (hm : getUTCMinutes t1 = getUTCMinutes t2) :
    angleBetweenClockHands t1 = angleBetweenClockHands t2 := by
  unfold angleBetweenClockHands angleDeg signedAngleDeg jsClockHour
  rw [hh, hm]

/-- Witness for C10: midnight of two consecutive days (time values 0 and
86400000) share hour 0 and minute 0, hence the same angle. -/
theorem C10_depends_only_on_hour_and_minute_check :
    getUTCHours 0 = getUTCHours 86400000 ∧
    getUTCMinutes 0 = getUTCMinutes 86400000 ∧
    angleBetweenClockHands 0 = angleBetweenClockHands 86400000 :=
  ⟨by decide, by decide,
   C10_depends_only_on_hour_and_minute 0 86400000 (by decide) (by decide)⟩

end DateTasks
